import Mathlib

/-!
Verification of the combat/turn engine of the dungeons-and-durable-objects
repository (src/apps/backend/src/Character.ts and src/apps/backend/src/Encounter.ts).

The TypeScript classes are Durable Objects whose persistent fields live in
key-value storage; each method reads the fields it uses, mutates them and
writes them back.  We embed that state as plain Lean structures and each
method as a function from the pre-state to the post-state.  A method that can
`throw` is embedded as returning `post-state × Except String result`: in
JavaScript a throw aborts the method but every mutation already performed
remains visible, so the post-state is returned even in the error case.
Dice rolls (`Math.random`) are threaded in as explicit oracle arguments.
Cross-object RPC (Character.move fetching its position from the Encounter and
asking it to move) is embedded as direct reads/calls on the Encounter state.
JavaScript record objects (string-keyed, insertion ordered) are embedded as
association lists with replace-or-append assignment; JavaScript `Set` is
embedded as a duplicate-free insertion-ordered list.
-/

namespace DnD

/-- Grid position (`interface Position` in Encounter.ts). -/
structure Position where
  x : Int
  y : Int
  deriving DecidableEq, Repr

/-- Terrain classes (`enum TerrainType` in Encounter.ts). -/
inductive TerrainType where
  | normal | wall | difficult | water | lava
  deriving DecidableEq, Repr

/-- Cover classes (`enum CoverType` in Encounter.ts). -/
inductive CoverType where
  | none | half | threeQuarters | full
  deriving DecidableEq, Repr

/-- One grid cell (`interface MapCell` in Encounter.ts). -/
structure MapCell where
  terrain : TerrainType
  characterId : Option String
  cover : CoverType
  deriving DecidableEq, Repr

/-- Team tag of a registered combatant. -/
inductive Team where
  | party | enemies
  deriving DecidableEq, Repr

/-- Roster entry (`interface EncounterCharacter`, fields used by the engine). -/
structure EncounterCharacter where
  name : String
  team : Team
  deriving DecidableEq, Repr

/-- Encounter lifecycle status (Encounter.ts `EncounterState.status`). -/
inductive EncounterStatus where
  | preparing | inProgress | completed
  deriving DecidableEq, Repr

/-- Lookup in a JavaScript-record-like association list (first matching key). -/
def lookupKey {α : Type} (k : String) : List (String × α) → Option α
  | [] => Option.none
  | q :: l => if q.1 = k then some q.2 else lookupKey k l

/-- JavaScript record assignment `obj[k] = v`: replace the entry if the key is
present, otherwise append it (insertion order preserved). -/
def setKey {α : Type} (k : String) (v : α) : List (String × α) → List (String × α)
  | [] => [(k, v)]
  | q :: l => if q.1 = k then (k, v) :: l else q :: setKey k v l

/-- Replace the element at index `i` by `f` of it (out of range: unchanged). -/
def modifyAt {α : Type} (i : Nat) (f : α → α) : List α → List α
  | [] => []
  | a :: l =>
    match i with
    | 0 => f a :: l
    | Nat.succ j => a :: modifyAt j f l

/-- Encounter-level aggregate state (Encounter.ts `EncounterState`; the fields
the verified operations read or write; the append-only logs and chat are
omitted because no claim observes them). -/
structure EncounterState where
  roundNumber : Int
  currentTurnIndex : Int
  initiativeOrder : List String
  characters : List (String × EncounterCharacter)
  mapWidth : Nat
  mapHeight : Nat
  map : List (List MapCell)
  characterPositions : List (String × Position)
  status : EncounterStatus
  deriving DecidableEq, Repr

/-- Read `map[p.y][p.x]`. -/
def getCell (m : List (List MapCell)) (p : Position) : Option MapCell :=
  (m.get? p.y.toNat).bind (fun row => row.get? p.x.toNat)

/-- Write `map[p.y][p.x].characterId = cid`. -/
def setCell (m : List (List MapCell)) (p : Position) (cid : Option String) :
    List (List MapCell) :=
  modifyAt p.y.toNat (modifyAt p.x.toNat (fun c => { c with characterId := cid })) m

/-- `Encounter.isValidPosition`: inside bounds and the target cell is not a
wall (occupancy is not checked). -/
def isValidPosition (e : EncounterState) (p : Position) : Bool :=
  decide (0 ≤ p.x) && decide (p.x < (e.mapWidth : Int)) &&
  decide (0 ≤ p.y) && decide (p.y < (e.mapHeight : Int)) &&
  (match getCell e.map p with
   | some c => decide (c.terrain ≠ TerrainType.wall)
   | Option.none => false)

/-- `Encounter.moveCharacter`: reject (false, no mutation) on an invalid
position; otherwise clear the previous cell's occupant, set the new cell's
occupant and record the new position.  No occupancy or budget check. -/
def moveCharacter (e : EncounterState) (cid : String) (newPos : Position) :
    EncounterState × Bool :=
  if isValidPosition e newPos then
    let m :=
      match lookupKey cid e.characterPositions with
      | some cur => setCell e.map cur Option.none
      | Option.none => e.map
    let m := setCell m newPos (some cid)
    ({ e with map := m, characterPositions := setKey cid newPos e.characterPositions }, true)
  else (e, false)

/-- Chebyshev distance between two cells times 5 feet per square
(`Math.max(|dx|, |dy|) * 5`). -/
def chebyshevFeet (p q : Position) : Int :=
  (max (p.x - q.x).natAbs (p.y - q.y).natAbs : Nat) * 5

/-- `Encounter.getAllCharacterDistances`: distances from the queried character
to every other character with a stored position, computed fresh; empty when
the queried character has no stored position. -/
def getAllCharacterDistances (e : EncounterState) (cid : String) :
    List (String × Int) :=
  match lookupKey cid e.characterPositions with
  | Option.none => []
  | some p1 =>
    (e.characterPositions.filter (fun q => decide (q.1 ≠ cid))).map
      (fun q => (q.1, chebyshevFeet p1 q.2))

/-- `Encounter.startEncounter`: throws unless status is PREPARING, otherwise
sets status to IN_PROGRESS.  It performs no roster check and rolls no
initiative itself (it only triggers the planner, which mutates nothing but
the log). -/
def startEncounter (e : EncounterState) : EncounterState × Except String Unit :=
  if e.status = EncounterStatus.preparing then
    ({ e with status := EncounterStatus.inProgress }, Except.ok ())
  else (e, Except.error ("Encounter must be in PREPARING state to start"))

/-- `Encounter.endEncounter`: throws unless status is IN_PROGRESS, otherwise
sets status to COMPLETED. -/
def endEncounter (e : EncounterState) : EncounterState × Except String Unit :=
  if e.status = EncounterStatus.inProgress then
    ({ e with status := EncounterStatus.completed }, Except.ok ())
  else (e, Except.error ("Encounter must be in IN_PROGRESS state to end"))

/-- Insert one (id, initiative) pair into a descending-sorted list, before the
first element whose initiative is not larger: this is the unique stable
descending order also produced by JavaScript's stable
`sort((a, b) => b.initiative - a.initiative)`. -/
def insertByInitiative (x : String × Int) : List (String × Int) → List (String × Int)
  | [] => [x]
  | y :: l => if y.2 ≤ x.2 then x :: y :: l else y :: insertByInitiative x l

/-- Stable descending sort by initiative (insertion sort). -/
def sortByInitiative : List (String × Int) → List (String × Int)
  | [] => []
  | x :: l => insertByInitiative x (sortByInitiative l)

/-- `Encounter.rollInitiative`: roll initiative for every registered character
(in registration order), sort the ids descending by roll (stable sort), store
the order and reset the turn index to 0.  The d20 + dexterity-modifier roll
performed inside each Character object is threaded in as the oracle
`initOf`. -/
def rollInitiative (e : EncounterState) (initOf : String → Int) : EncounterState :=
  let initiatives := e.characters.map (fun q => (q.1, initOf q.1))
  let order := (sortByInitiative initiatives).map Prod.fst
  { e with initiativeOrder := order, currentTurnIndex := 0 }

/-- `Encounter.advanceRound`: increment the round number and reset the turn
index to 0. -/
def advanceRound (e : EncounterState) : EncounterState :=
  { e with roundNumber := e.roundNumber + 1, currentTurnIndex := 0 }

/-- `Encounter.advanceTurn`: at the end of the initiative order advance the
round, otherwise increment the turn index. -/
def advanceTurn (e : EncounterState) : EncounterState :=
  if (e.initiativeOrder.length : Int) - 1 ≤ e.currentTurnIndex then advanceRound e
  else { e with currentTurnIndex := e.currentTurnIndex + 1 }

/-- Per-turn budget (`TurnState` in types.ts): one action, one bonus action,
and a remaining movement allowance in feet. -/
structure TurnState where
  hasUsedAction : Bool
  hasUsedBonusAction : Bool
  remainingMovement : Int
  deriving DecidableEq, Repr

/-- A saving-throw requirement of a special action. -/
structure SavingThrowSpec where
  ability : String
  dc : Int
  deriving DecidableEq, Repr

/-- Damage-roll specification (`DamageRoll` in types.ts). -/
structure DamageRoll where
  diceCount : Nat
  diceType : Nat
  modifier : Int
  damageType : String
  deriving DecidableEq, Repr

/-- A named action (`Action` in types.ts): a weapon attack or a special
ability. -/
inductive CharAction where
  | weapon (name : String) (attackBonus : Int) (damage : DamageRoll)
  | special (name : String) (description : String)
      (savingThrow : Option SavingThrowSpec) (damage : Option DamageRoll)
  deriving DecidableEq, Repr

/-- The name an action is looked up by. -/
def CharAction.name : CharAction → String
  | .weapon n _ _ => n
  | .special n _ _ _ => n

/-- Six ability scores. -/
structure Stats where
  strength : Int
  dexterity : Int
  constitution : Int
  intelligence : Int
  wisdom : Int
  charisma : Int
  deriving DecidableEq, Repr

/-- Character sheet state (the Character Durable Object's stored fields that
the verified combat operations read or write) plus the in-memory
`turnState`. -/
structure CharacterState where
  name : String
  stats : Stats
  currentHp : Int
  maxHp : Int
  conditions : List String
  inventory : List String
  speed : Int
  initiativeModifier : Int
  proficiencyBonus : Int
  level : Int
  actions : List CharAction
  bonusActions : List CharAction
  turnState : Option TurnState
  deriving DecidableEq, Repr

/-- `Character.addCondition`: conditions are a JavaScript `Set`, so adding an
already-present condition is a no-op; a new one is appended. -/
def addCondition (s : CharacterState) (c : String) : CharacterState :=
  if c ∈ s.conditions then s else { s with conditions := s.conditions ++ [c] }

/-- `Character.updateHp`: clamp the new HP into [0, maxHp]; at 0 HP add the
"Unconscious" condition.  No branch ever removes a condition. -/
def updateHp (s : CharacterState) (amount : Int) : CharacterState :=
  let newHp := max 0 (min s.maxHp (s.currentHp + amount))
  let s1 := { s with currentHp := newHp }
  if newHp = 0 then addCondition s1 ("Unconscious") else s1

/-- `Character.startTurn`: reset the turn budget to (unused, unused, speed). -/
def startTurn (s : CharacterState) : CharacterState :=
  let ts : TurnState :=
    { hasUsedAction := false, hasUsedBonusAction := false, remainingMovement := s.speed }
  { s with turnState := some ts }

/-- `Character.endTurn`: clear the turn state unconditionally. -/
def endTurn (s : CharacterState) : CharacterState :=
  { s with turnState := Option.none }

/-- `Character.useMovement`: false (no mutation) without an active turn or when
the distance exceeds the remaining movement; otherwise subtract exactly the
distance. -/
def useMovement (s : CharacterState) (distance : Int) : CharacterState × Bool :=
  match s.turnState with
  | Option.none => (s, false)
  | some ts =>
    if ts.remainingMovement < distance then (s, false)
    else
      let ts1 := { ts with remainingMovement := ts.remainingMovement - distance }
      ({ s with turnState := some ts1 }, true)

/-- Result of `Character.dash`. -/
structure DashResult where
  additionalMovement : Int
  deriving DecidableEq, Repr

/-- `Character.dash`: gated on the action slot; adds the base speed to the
remaining movement and consumes the action slot. -/
def dash (s : CharacterState) : CharacterState × Except String DashResult :=
  match s.turnState with
  | Option.none => (s, Except.error ("No action available"))
  | some ts =>
    if ts.hasUsedAction then (s, Except.error ("No action available"))
    else
      let ts1 :=
        { ts with remainingMovement := ts.remainingMovement + s.speed, hasUsedAction := true }
      ({ s with turnState := some ts1 }, Except.ok ({ additionalMovement := s.speed }))

/-- `Character.disengage`: gated on the action slot; consumes it and sets no
other state. -/
def disengage (s : CharacterState) : CharacterState × Except String Unit :=
  match s.turnState with
  | Option.none => (s, Except.error ("No action available"))
  | some ts =>
    if ts.hasUsedAction then (s, Except.error ("No action available"))
    else ({ s with turnState := some ({ ts with hasUsedAction := true }) }, Except.ok ())

/-- Result of `Character.hide` (a stealth skill check). -/
structure HideResult where
  stealthRoll : Int
  criticalSuccess : Bool
  criticalFailure : Bool
  deriving DecidableEq, Repr

/-- `Character.hide`: gated on the action slot; performs a stealth check (d20
oracle `d20` plus the sheet-derived modifier total `modTotal`) and consumes
the action slot. -/
def hide (s : CharacterState) (d20 : Nat) (modTotal : Int) :
    CharacterState × Except String HideResult :=
  match s.turnState with
  | Option.none => (s, Except.error ("No action available"))
  | some ts =>
    if ts.hasUsedAction then (s, Except.error ("No action available"))
    else
      let r : HideResult :=
        { stealthRoll := (d20 : Int) + modTotal,
          criticalSuccess := d20 == 20, criticalFailure := d20 == 1 }
      ({ s with turnState := some ({ ts with hasUsedAction := true }) }, Except.ok r)

/-- Dice oracle for an action resolution: the attack d20 and the indexed
damage-die results. -/
structure RollOracle where
  attackD20 : Nat
  damageDice : Nat → Nat

/-- Rolled damage (`Character.rollDamage` result). -/
structure DamageResult where
  total : Int
  rolls : List Nat
  damageType : String
  modifier : Int
  deriving DecidableEq, Repr

/-- `Character.rollDamage`: the dice count doubles on a critical; total is the
flat modifier plus the sum of the per-die results. -/
def rollDamage (d : DamageRoll) (isCrit : Bool) (dice : Nat → Nat) : DamageResult :=
  let diceCount := if isCrit then d.diceCount * 2 else d.diceCount
  let rolls := (List.range diceCount).map dice
  { total := d.modifier + rolls.foldl (fun a b => a + (b : Int)) 0,
    rolls := rolls, damageType := d.damageType, modifier := d.modifier }

/-- Result of performing an action. -/
inductive ActionResult where
  | attack (attackRoll : Int) (damage : DamageResult) (isCrit isCritFail : Bool)
      (target : Option String)
  | special (description : String) (savingThrow : Option SavingThrowSpec)
      (damage : Option DamageResult) (target : Option String)
  deriving DecidableEq, Repr

/-- `Character.performAction`: throws without an active turn or when the action
slot is used; looks the name up in the action list and throws when absent;
then marks the action slot used BEFORE resolving (deliberate fail-closed
policy) and resolves the weapon attack or special ability. -/
def performAction (s : CharacterState) (o : RollOracle) (actionName : String)
    (target : Option String) : CharacterState × Except String ActionResult :=
  match s.turnState with
  | Option.none => (s, Except.error ("No action available"))
  | some ts =>
    if ts.hasUsedAction then (s, Except.error ("No action available"))
    else
      match s.actions.find? (fun a => a.name == actionName) with
      | Option.none => (s, Except.error ("Action " ++ actionName ++ " not found"))
      | some act =>
        let s1 := { s with turnState := some ({ ts with hasUsedAction := true }) }
        match act with
        | .weapon _ attackBonus damage =>
          let isCrit := o.attackD20 == 20
          (s1, Except.ok (.attack ((o.attackD20 : Int) + attackBonus)
            (rollDamage damage isCrit o.damageDice) isCrit (o.attackD20 == 1) target))
        | .special _ desc savingThrow damage =>
          (s1, Except.ok (.special desc savingThrow
            (damage.map (fun d => rollDamage d false o.damageDice)) target))

/-- `Character.performBonusAction`: throws without an active turn or when the
bonus-action slot is used; looks the name up in the bonus-action list and
throws when absent; then marks the bonus-action slot used and DELEGATES to
`performAction` with the same name.  The delegated call re-gates on the
action slot, looks the name up in the (regular) action list, and on success
consumes the action slot as well; if it throws, the bonus-action slot stays
consumed (the mutation already happened). -/
def performBonusAction (s : CharacterState) (o : RollOracle) (actionName : String)
    (target : Option String) : CharacterState × Except String ActionResult :=
  match s.turnState with
  | Option.none => (s, Except.error ("No bonus action available"))
  | some ts =>
    if ts.hasUsedBonusAction then (s, Except.error ("No bonus action available"))
    else
      match s.bonusActions.find? (fun a => a.name == actionName) with
      | Option.none => (s, Except.error ("Bonus action " ++ actionName ++ " not found"))
      | some _ =>
        performAction ({ s with turnState := some ({ ts with hasUsedBonusAction := true }) })
          o actionName target

/-- The Character and the Encounter it is registered in, for the cross-object
`Character.move`. -/
structure World where
  encounter : EncounterState
  character : CharacterState
  deriving DecidableEq, Repr

/-- Result of `Character.move`. -/
structure MoveResult where
  distance : Int
  newPosition : Position
  remainingMovement : Int
  deriving DecidableEq, Repr

/-- `Character.move`: throws without an active turn; reads the current position
from the Encounter (embedded as a direct read of `characterPositions`),
computes the Chebyshev distance in feet, throws with no mutation when it
exceeds the remaining movement; otherwise asks the Encounter to move the
character, and on success subtracts the consumed distance via `useMovement`
(the action and bonus-action slots are untouched).  An invalid target is
rejected after `moveCharacter` declined (which mutated nothing). -/
def move (w : World) (cid : String) (x y : Int) : World × Except String MoveResult :=
  match w.character.turnState with
  | Option.none => (w, Except.error ("No turn in progress"))
  | some ts =>
    match lookupKey cid w.encounter.characterPositions with
    | Option.none => (w, Except.error ("No current position"))
    | some cur =>
      let distance := chebyshevFeet cur { x := x, y := y }
      if ts.remainingMovement < distance then
        (w, Except.error ("Not enough movement remaining"))
      else
        let res := moveCharacter w.encounter cid { x := x, y := y }
        if res.2 then
          let cres := useMovement w.character distance
          let rem : Int :=
            match cres.1.turnState with
            | some ts1 => ts1.remainingMovement
            | Option.none => 0
          let r : MoveResult :=
            { distance := distance, newPosition := { x := x, y := y },
              remainingMovement := rem }
          ({ encounter := res.1, character := cres.1 }, Except.ok r)
        else ({ w with encounter := res.1 }, Except.error ("Invalid movement target"))

/-- Whether an embedded method call ended in a JavaScript throw. -/
def isErr {α : Type} : Except String α → Bool
  | Except.error _ => true
  | Except.ok _ => false

/-- One gated operation inside a turn, for the turn-state monotonicity
claims ('move' stands for the validated movement commit performed through
`useMovement` with the nonnegative Chebyshev distance of `Character.move`). -/
inductive TurnOp where
  | doAction (o : RollOracle) (name : String) (target : Option String)
  | doBonusAction (o : RollOracle) (name : String) (target : Option String)
  | doDash
  | doDisengage
  | doHide (d20 : Nat) (modTotal : Int)
  | doMove (distance : Int)

/-- State transition of one turn operation (the result value is dropped; on a
throw the post-state is kept, as in the JavaScript). -/
def applyOp (s : CharacterState) : TurnOp → CharacterState
  | .doAction o n t => (performAction s o n t).1
  | .doBonusAction o n t => (performBonusAction s o n t).1
  | .doDash => (dash s).1
  | .doDisengage => (disengage s).1
  | .doHide d m => (hide s d m).1
  | .doMove d => (useMovement s d).1

/-- State after a sequence of turn operations. -/
def applyOps (s : CharacterState) (ops : List TurnOp) : CharacterState :=
  ops.foldl applyOp s

/-- The message of a thrown error, if any. -/
def errMsg {α : Type} : Except String α → Option String
  | Except.error e => some e
  | Except.ok _ => Option.none

/-! ### Concrete sample states used by counterexamples and witnesses -/

/-- A plain ability-score block. -/
def statsDefault : Stats := ⟨10, 14, 12, 10, 10, 10⟩

/-- A baseline level-1 character with dexterity 14 and speed 30. -/
def char0 : CharacterState :=
  { name := "Hero", stats := statsDefault, currentHp := 5, maxHp := 10,
    conditions := [], inventory := [], speed := 30, initiativeModifier := 2,
    proficiencyBonus := 2, level := 1, actions := [], bonusActions := [],
    turnState := Option.none }

/-- A fixed dice oracle. -/
def oracle0 : RollOracle := { attackD20 := 10, damageDice := fun _ => 3 }

/-- A normal open cell. -/
def cellN : MapCell :=
  { terrain := TerrainType.normal, characterId := Option.none, cover := CoverType.none }

/-- A wall cell. -/
def cellW : MapCell :=
  { terrain := TerrainType.wall, characterId := Option.none, cover := CoverType.none }

/-- A PREPARING encounter with an empty roster. -/
def encPrepEmpty : EncounterState :=
  { roundNumber := 0, currentTurnIndex := -1, initiativeOrder := [],
    characters := [], mapWidth := 2, mapHeight := 2,
    map := [[cellN, cellN], [cellN, cellN]], characterPositions := [],
    status := EncounterStatus.preparing }

/-- A PREPARING encounter with one registered character and no initiative
rolled yet. -/
def encPrepOne : EncounterState :=
  { encPrepEmpty with characters := [("A", { name := "Anna", team := Team.party })] }

/-- A COMPLETED encounter with two placed characters. -/
def encDone : EncounterState :=
  { roundNumber := 1, currentTurnIndex := 0, initiativeOrder := ["A", "B"],
    characters := [("A", { name := "Anna", team := Team.party }),
                   ("B", { name := "Borg", team := Team.enemies })],
    mapWidth := 3, mapHeight := 3,
    map := [[{ cellN with characterId := some "A" }, cellN, cellN],
            [cellN, { cellN with characterId := some "B" }, cellN],
            [cellN, cellN, cellN]],
    characterPositions := [("A", ⟨0, 0⟩), ("B", ⟨1, 1⟩)],
    status := EncounterStatus.completed }

/-! ### Helper lemmas -/

lemma addCondition_currentHp (s : CharacterState) (c : String) :
    (addCondition s c).currentHp = s.currentHp := by
  unfold addCondition; split <;> rfl

lemma addCondition_maxHp (s : CharacterState) (c : String) :
    (addCondition s c).maxHp = s.maxHp := by
  unfold addCondition; split <;> rfl

lemma mem_addCondition (s : CharacterState) (c d : String) :
    d ∈ (addCondition s c).conditions ↔ d = c ∨ d ∈ s.conditions := by
  unfold addCondition
  split
  all_goals rename_i h
  · constructor
    · exact fun h2 => Or.inr h2
    · intro h2
      rcases h2 with h2 | h2
      · exact h2 ▸ h
      · exact h2
  · simp only [List.mem_append, List.mem_singleton]
    exact Or.comm

lemma addCondition_of_mem (s : CharacterState) (c : String) (h : c ∈ s.conditions) :
    addCondition s c = s := by
  unfold addCondition; simp [h]

lemma addCondition_nodup (s : CharacterState) (c : String) (h : s.conditions.Nodup) :
    (addCondition s c).conditions.Nodup := by
  unfold addCondition
  split
  · exact h
  · rename_i h2
    simp [List.nodup_append, h, h2]

/-- `updateHp` unfolded (the two `let`s zeta-reduced). -/
lemma updateHp_eq (s : CharacterState) (amount : Int) :
    updateHp s amount =
      (if max 0 (min s.maxHp (s.currentHp + amount)) = 0 then
        addCondition { s with currentHp := max 0 (min s.maxHp (s.currentHp + amount)) }
          ("Unconscious")
      else { s with currentHp := max 0 (min s.maxHp (s.currentHp + amount)) }) := rfl

lemma map_fst_filter_pair {β : Type} (cid : String) (g : String × β → Int)
    (l : List (String × β)) :
    ((l.filter (fun q => decide (q.1 ≠ cid))).map (fun q => (q.1, g q))).map Prod.fst
      = (l.map Prod.fst).filter (fun i => decide (i ≠ cid)) := by
  induction l with
  | nil => rfl
  | cons q l ih =>
    by_cases h : q.1 = cid
    · simp only [List.filter_cons, List.map_cons, h]
      simpa using ih
    · simp only [List.filter_cons, List.map_cons, h]
      simp only [ne_eq, h, not_false_eq_true, List.map_cons]
      simpa [h] using ih

lemma moveCharacter_of_invalid (e : EncounterState) (cid : String) (p : Position)
    (h : isValidPosition e p = false) : moveCharacter e cid p = (e, false) := by
  unfold moveCharacter
  rw [h]
  rfl

lemma moveCharacter_false_fst (e : EncounterState) (cid : String) (p : Position)
    (h : (moveCharacter e cid p).2 = false) : (moveCharacter e cid p).1 = e := by
  by_cases hv : isValidPosition e p
  · unfold moveCharacter at h
    rw [if_pos hv] at h
    cases h
  · rw [moveCharacter_of_invalid e cid p (by simpa using hv)]

lemma performAction_result (s : CharacterState) (o : RollOracle) (n : String)
    (t : Option String) (ts : TurnState) (hts : s.turnState = some ts) :
    (performAction s o n t).1 = s ∨
    ((performAction s o n t).1 = { s with turnState := some { ts with hasUsedAction := true } }
      ∧ isErr (performAction s o n t).2 = false ∧ ts.hasUsedAction = false) := by
  unfold performAction
  rw [hts]
  dsimp only
  by_cases ha : ts.hasUsedAction = true
  · rw [if_pos ha]
    exact Or.inl rfl
  · rw [if_neg ha]
    cases s.actions.find? (fun a => a.name == n) with
    | none => exact Or.inl rfl
    | some act =>
      cases act with
      | weapon nm ab dm => exact Or.inr ⟨rfl, rfl, by simpa using ha⟩
      | special nm de sv dm => exact Or.inr ⟨rfl, rfl, by simpa using ha⟩

lemma performAction_err (s : CharacterState) (o : RollOracle) (n : String)
    (t : Option String) (h : isErr (performAction s o n t).2 = true) :
    (performAction s o n t).1 = s := by
  cases hts : s.turnState with
  | none => unfold performAction; rw [hts]
  | some ts =>
    rcases performAction_result s o n t ts hts with h1 | ⟨_, h2, _⟩
    · exact h1
    · rw [h2] at h; cases h

lemma performBonusAction_result (s : CharacterState) (o : RollOracle) (n : String)
    (t : Option String) (ts : TurnState) (hts : s.turnState = some ts) :
    (performBonusAction s o n t).1 = s ∨
    (ts.hasUsedBonusAction = false ∧
      performBonusAction s o n t
        = performAction { s with turnState := some ({ ts with hasUsedBonusAction := true }) }
            o n t) := by
  unfold performBonusAction
  rw [hts]
  dsimp only
  by_cases hb : ts.hasUsedBonusAction = true
  · rw [if_pos hb]
    exact Or.inl rfl
  · rw [if_neg hb]
    cases s.bonusActions.find? (fun a => a.name == n) with
    | none => exact Or.inl rfl
    | some act => exact Or.inr ⟨by simpa using hb, rfl⟩

lemma dash_result (s : CharacterState) (ts : TurnState) (hts : s.turnState = some ts) :
    (dash s).1 = s ∨
    (dash s).1 = { s with turnState := some ⟨true, ts.hasUsedBonusAction, ts.remainingMovement + s.speed⟩ } := by
  unfold dash
  rw [hts]
  dsimp only
  by_cases ha : ts.hasUsedAction = true
  · rw [if_pos ha]
    exact Or.inl rfl
  · rw [if_neg ha]
    exact Or.inr rfl

lemma dash_err (s : CharacterState) (h : isErr (dash s).2 = true) : (dash s).1 = s := by
  cases hts : s.turnState with
  | none => unfold dash; rw [hts]
  | some ts =>
    unfold dash at *
    rw [hts] at h ⊢
    dsimp only at h ⊢
    by_cases ha : ts.hasUsedAction = true
    · rw [if_pos ha]
    · rw [if_neg ha] at h
      cases h

lemma disengage_err (s : CharacterState) (h : isErr (disengage s).2 = true) :
    (disengage s).1 = s := by
  cases hts : s.turnState with
  | none => unfold disengage; rw [hts]
  | some ts =>
    unfold disengage at *
    rw [hts] at h ⊢
    dsimp only at h ⊢
    by_cases ha : ts.hasUsedAction = true
    · rw [if_pos ha]
    · rw [if_neg ha] at h
      cases h

lemma hide_err (s : CharacterState) (d20 : Nat) (m : Int)
    (h : isErr (hide s d20 m).2 = true) : (hide s d20 m).1 = s := by
  cases hts : s.turnState with
  | none => unfold hide; rw [hts]
  | some ts =>
    unfold hide at *
    rw [hts] at h ⊢
    dsimp only at h ⊢
    by_cases ha : ts.hasUsedAction = true
    · rw [if_pos ha]
    · rw [if_neg ha] at h
      cases h

lemma useMovement_result (s : CharacterState) (d : Int) (ts : TurnState)
    (hts : s.turnState = some ts) :
    (ts.remainingMovement < d → useMovement s d = (s, false)) ∧
    (d ≤ ts.remainingMovement →
      useMovement s d =
        ({ s with turnState := some ⟨ts.hasUsedAction, ts.hasUsedBonusAction, ts.remainingMovement - d⟩ }, true)) := by
  unfold useMovement
  rw [hts]
  dsimp only
  constructor
  · intro h; rw [if_pos h]
  · intro h; rw [if_neg (by omega)]

lemma useMovement_false (s : CharacterState) (d : Int)
    (h : (useMovement s d).2 = false) : (useMovement s d).1 = s := by
  cases hts : s.turnState with
  | none => unfold useMovement; rw [hts]
  | some ts =>
    by_cases hd : ts.remainingMovement < d
    · rw [(useMovement_result s d ts hts).1 hd]
    · rw [(useMovement_result s d ts hts).2 (by omega)] at h
      cases h

lemma move_err (w : World) (cid : String) (x y : Int)
    (h : isErr (move w cid x y).2 = true) : (move w cid x y).1 = w := by
  cases hts : w.character.turnState with
  | none => unfold move; rw [hts]
  | some ts =>
    cases hpos : lookupKey cid w.encounter.characterPositions with
    | none => unfold move; rw [hts, hpos]
    | some cur =>
      unfold move at *
      rw [hts, hpos] at h ⊢
      dsimp only at h ⊢
      by_cases hd : ts.remainingMovement < chebyshevFeet cur { x := x, y := y }
      · rw [if_pos hd]
      · rw [if_neg hd] at h ⊢
        by_cases hm : (moveCharacter w.encounter cid { x := x, y := y }).2 = true
        · rw [if_pos hm] at h
          cases h
        · rw [if_neg hm]
          rw [moveCharacter_false_fst _ _ _ (by simpa using hm)]

lemma set_turnState_self (s : CharacterState) (ts : TurnState)
    (hts : s.turnState = some ts) : { s with turnState := some ts } = s := by
  cases s
  simp only [] at hts
  rw [hts]

lemma disengage_result (s : CharacterState) (ts : TurnState) (hts : s.turnState = some ts) :
    (disengage s).1 = s ∨
    (disengage s).1 = { s with turnState := some ⟨true, ts.hasUsedBonusAction, ts.remainingMovement⟩ } := by
  unfold disengage
  rw [hts]
  dsimp only
  by_cases ha : ts.hasUsedAction = true
  · rw [if_pos ha]
    exact Or.inl rfl
  · rw [if_neg ha]
    exact Or.inr rfl

lemma hide_result (s : CharacterState) (d20 : Nat) (m : Int) (ts : TurnState)
    (hts : s.turnState = some ts) :
    (hide s d20 m).1 = s ∨
    (hide s d20 m).1 = { s with turnState := some ⟨true, ts.hasUsedBonusAction, ts.remainingMovement⟩ } := by
  unfold hide
  rw [hts]
  dsimp only
  by_cases ha : ts.hasUsedAction = true
  · rw [if_pos ha]
    exact Or.inl rfl
  · rw [if_neg ha]
    exact Or.inr rfl

/-- What one turn operation does to the turn state: it stays present, and the
new value is the old one with some flags possibly raised and the movement
either unchanged, increased by the speed (dash only), or decreased by a
validated distance. -/
lemma applyOp_turnState_result (s : CharacterState) (ts : TurnState)
    (hts : s.turnState = some ts) (op : TurnOp) :
    ∃ ts1, applyOp s op = { s with turnState := some ts1 } ∧
      (ts.hasUsedAction = true → ts1.hasUsedAction = true) ∧
      (ts.hasUsedBonusAction = true → ts1.hasUsedBonusAction = true) ∧
      (ts1.remainingMovement = ts.remainingMovement ∨
       (ts1.remainingMovement = ts.remainingMovement + s.speed ∧ op = TurnOp.doDash) ∨
       (∃ d : Int, op = TurnOp.doMove d ∧
          ts1.remainingMovement = ts.remainingMovement - d ∧ d ≤ ts.remainingMovement)) := by
  cases op with
  | doAction o n t =>
    rcases performAction_result s o n t ts hts with h1 | ⟨h1, _, _⟩
    · refine ⟨ts, ?_, fun h => h, fun h => h, Or.inl rfl⟩
      show (performAction s o n t).1 = _
      rw [set_turnState_self s ts hts]
      exact h1
    · exact ⟨⟨true, ts.hasUsedBonusAction, ts.remainingMovement⟩, h1, fun _ => rfl,
        fun h => h, Or.inl rfl⟩
  | doBonusAction o n t =>
    rcases performBonusAction_result s o n t ts hts with h1 | ⟨hb, h1⟩
    · refine ⟨ts, ?_, fun h => h, fun h => h, Or.inl rfl⟩
      show (performBonusAction s o n t).1 = _
      rw [set_turnState_self s ts hts]
      exact h1
    · have hts1 : ({ s with turnState := some ({ ts with hasUsedBonusAction := true }) }
          : CharacterState).turnState = some ⟨ts.hasUsedAction, true, ts.remainingMovement⟩ := rfl
      rcases performAction_result _ o n t _ hts1 with h2 | ⟨h2, _, _⟩
      · refine ⟨⟨ts.hasUsedAction, true, ts.remainingMovement⟩, ?_, fun h => h,
          fun _ => rfl, Or.inl rfl⟩
        show (performBonusAction s o n t).1 = _
        rw [h1, h2]
      · refine ⟨⟨true, true, ts.remainingMovement⟩, ?_, fun _ => rfl, fun _ => rfl, Or.inl rfl⟩
        show (performBonusAction s o n t).1 = _
        rw [h1, h2]
  | doDash =>
    rcases dash_result s ts hts with h1 | h1
    · refine ⟨ts, ?_, fun h => h, fun h => h, Or.inl rfl⟩
      show (dash s).1 = _
      rw [set_turnState_self s ts hts]
      exact h1
    · exact ⟨⟨true, ts.hasUsedBonusAction, ts.remainingMovement + s.speed⟩, h1, fun _ => rfl,
        fun h => h, Or.inr (Or.inl ⟨rfl, rfl⟩)⟩
  | doDisengage =>
    rcases disengage_result s ts hts with h1 | h1
    · refine ⟨ts, ?_, fun h => h, fun h => h, Or.inl rfl⟩
      show (disengage s).1 = _
      rw [set_turnState_self s ts hts]
      exact h1
    · exact ⟨⟨true, ts.hasUsedBonusAction, ts.remainingMovement⟩, h1, fun _ => rfl,
        fun h => h, Or.inl rfl⟩
  | doHide d20 m =>
    rcases hide_result s d20 m ts hts with h1 | h1
    · refine ⟨ts, ?_, fun h => h, fun h => h, Or.inl rfl⟩
      show (hide s d20 m).1 = _
      rw [set_turnState_self s ts hts]
      exact h1
    · exact ⟨⟨true, ts.hasUsedBonusAction, ts.remainingMovement⟩, h1, fun _ => rfl,
        fun h => h, Or.inl rfl⟩
  | doMove d =>
    by_cases hlt : ts.remainingMovement < d
    · have heq := (useMovement_result s d ts hts).1 hlt
      refine ⟨ts, ?_, fun h => h, fun h => h, Or.inl rfl⟩
      show (useMovement s d).1 = _
      rw [heq, set_turnState_self s ts hts]
    · have heq := (useMovement_result s d ts hts).2 (by omega)
      refine ⟨⟨ts.hasUsedAction, ts.hasUsedBonusAction, ts.remainingMovement - d⟩, ?_,
        fun h => h, fun h => h, Or.inr (Or.inr ⟨d, rfl, rfl, by omega⟩)⟩
      show (useMovement s d).1 = _
      rw [heq]

/-- Closure of `applyOp_turnState_result` over a sequence of operations. -/
lemma applyOps_step (ops : List TurnOp) :
    ∀ (s : CharacterState) (ts : TurnState), s.turnState = some ts → 0 ≤ s.speed →
      0 ≤ ts.remainingMovement →
      ∃ ts1, (applyOps s ops).turnState = some ts1 ∧
        (ts.hasUsedAction = true → ts1.hasUsedAction = true) ∧
        (ts.hasUsedBonusAction = true → ts1.hasUsedBonusAction = true) ∧
        0 ≤ ts1.remainingMovement ∧
        ((∀ op ∈ ops, op ≠ TurnOp.doDash) →
          (∀ op ∈ ops, ∀ d : Int, op = TurnOp.doMove d → 0 ≤ d) →
          ts1.remainingMovement ≤ ts.remainingMovement) := by
  induction ops with
  | nil =>
    intro s ts hts hsp h0
    exact ⟨ts, hts, fun h => h, fun h => h, h0, fun _ _ => le_refl _⟩
  | cons op ops ih =>
    intro s ts hts hsp h0
    obtain ⟨ts1, h1, hf1, hb1, hr1⟩ := applyOp_turnState_result s ts hts op
    have hts1 : (applyOp s op).turnState = some ts1 := by rw [h1]
    have hsp1 : 0 ≤ (applyOp s op).speed := by rw [h1]; exact hsp
    have h01 : 0 ≤ ts1.remainingMovement := by
      rcases hr1 with h | ⟨h, _⟩ | ⟨d, _, h, hle⟩ <;> omega
    obtain ⟨ts2, h2, hf2, hb2, h02, hle2⟩ := ih (applyOp s op) ts1 hts1 hsp1 h01
    refine ⟨ts2, h2, fun h => hf2 (hf1 h), fun h => hb2 (hb1 h), h02, ?_⟩
    intro hnd hmv
    have hstep : ts1.remainingMovement ≤ ts.remainingMovement := by
      rcases hr1 with h | ⟨_, hdash⟩ | ⟨d, hop2, h, hle⟩
      · omega
      · exact absurd hdash (hnd op (List.mem_cons_self op ops))
      · have hd0 : 0 ≤ d := hmv op (List.mem_cons_self op ops) d hop2
        omega
    have htail := hle2 (fun op2 h2m => hnd op2 (List.mem_cons_of_mem op h2m))
      (fun op2 h2m => hmv op2 (List.mem_cons_of_mem op h2m))
    omega

/-! ### C2: updateHp clamps HP and manages the Unconscious condition -/

/-- C2 counterexample: the claim's "Unconscious present iff new HP = 0" is
false on the code.  A character dropped to 0 gains the condition; healing it
back to 5 HP leaves the condition in place although the new HP is nonzero
(`updateHp` never removes conditions). -/
theorem updateHp_heal_keeps_unconscious :
    (updateHp char0 (-10)).currentHp = 0 ∧
    ("Unconscious") ∈ (updateHp char0 (-10)).conditions ∧
    (updateHp (updateHp char0 (-10)) 5).currentHp = 5 ∧
    ("Unconscious") ∈ (updateHp (updateHp char0 (-10)) 5).conditions := by
  decide

/-- C2 (amended): `updateHp` sets HP to clamp(current + amount, 0, max) and
keeps it in [0, max]; afterwards "Unconscious" is present iff the new HP is 0
or the condition was already present (it is added idempotently at 0 and never
removed); when it was already present the condition set is unchanged, so
repeated deltas that keep HP at 0 leave it unchanged; set semantics are
preserved (no duplicates). -/
theorem updateHp_clamp_unconscious (s : CharacterState) (amount : Int)
    (h0 : 0 ≤ s.currentHp) (h1 : s.currentHp ≤ s.maxHp) (h2 : s.conditions.Nodup) :
    (updateHp s amount).currentHp = max 0 (min s.maxHp (s.currentHp + amount)) ∧
    0 ≤ (updateHp s amount).currentHp ∧
    (updateHp s amount).currentHp ≤ s.maxHp ∧
    (updateHp s amount).maxHp = s.maxHp ∧
    (("Unconscious") ∈ (updateHp s amount).conditions ↔
      (updateHp s amount).currentHp = 0 ∨ ("Unconscious") ∈ s.conditions) ∧
    (("Unconscious") ∈ s.conditions → (updateHp s amount).conditions = s.conditions) ∧
    (updateHp s amount).conditions.Nodup := by
  rw [updateHp_eq]
  by_cases h : max 0 (min s.maxHp (s.currentHp + amount)) = 0
  · rw [if_pos h]
    refine ⟨addCondition_currentHp .., ?_, ?_, addCondition_maxHp .., ?_, ?_, ?_⟩
    · rw [addCondition_currentHp]
      show 0 ≤ max 0 (min s.maxHp (s.currentHp + amount))
      omega
    · rw [addCondition_currentHp]
      show max 0 (min s.maxHp (s.currentHp + amount)) ≤ s.maxHp
      omega
    · rw [mem_addCondition, addCondition_currentHp]
      show _ ↔ max 0 (min s.maxHp (s.currentHp + amount)) = 0 ∨ _
      simp [h]
    · intro hm
      have he := addCondition_of_mem
        { s with currentHp := max 0 (min s.maxHp (s.currentHp + amount)) } ("Unconscious") hm
      rw [he]
    · exact addCondition_nodup _ _ h2
  · rw [if_neg h]
    refine ⟨rfl, ?_, ?_, rfl, ?_, ?_, h2⟩
    · show 0 ≤ max 0 (min s.maxHp (s.currentHp + amount)); omega
    · show max 0 (min s.maxHp (s.currentHp + amount)) ≤ s.maxHp; omega
    · show _ ↔ max 0 (min s.maxHp (s.currentHp + amount)) = 0 ∨ _
      simp [h]
    · intro _; rfl

/-- C2 witness: the amended theorem applied to the baseline character and a
-10 delta. -/
theorem updateHp_clamp_unconscious_witness :
    0 ≤ char0.currentHp ∧ char0.currentHp ≤ char0.maxHp ∧ char0.conditions.Nodup ∧
    (updateHp char0 (-10)).currentHp = max 0 (min char0.maxHp (char0.currentHp + (-10))) ∧
    (("Unconscious") ∈ (updateHp char0 (-10)).conditions ↔
      (updateHp char0 (-10)).currentHp = 0 ∨ ("Unconscious") ∈ char0.conditions) :=
  ⟨by decide, by decide, by decide,
    (updateHp_clamp_unconscious char0 (-10) (by decide) (by decide) (by decide)).1,
    (updateHp_clamp_unconscious char0 (-10) (by decide) (by decide) (by decide)).2.2.2.2.1⟩

/-! ### C7: the PREPARING → IN_PROGRESS transition -/

/-- C7 counterexample: `startEncounter` succeeds on an empty roster (the claim
says the transition requires a non-empty roster), and on a non-empty roster it
rolls no initiative as part of the transition (the initiative order is left
empty). -/
theorem startEncounter_empty_roster_succeeds :
    encPrepEmpty.characters = [] ∧
    encPrepEmpty.status = EncounterStatus.preparing ∧
    isErr (startEncounter encPrepEmpty).2 = false ∧
    (startEncounter encPrepEmpty).1.status = EncounterStatus.inProgress ∧
    encPrepOne.characters ≠ [] ∧
    isErr (startEncounter encPrepOne).2 = false ∧
    (startEncounter encPrepOne).1.initiativeOrder = [] := by
  decide

/-- C7 (amended): `startEncounter` succeeds exactly when the status is
PREPARING (it throws for IN_PROGRESS or COMPLETED); it performs no roster
check and does not itself roll initiative: the roster and the initiative
order are unchanged by the transition (initiative is rolled by the separate
`rollInitiative` operation, invoked later by the planner). -/
theorem startEncounter_spec (e : EncounterState) :
    (e.status = EncounterStatus.preparing →
      startEncounter e = ({ e with status := EncounterStatus.inProgress }, Except.ok ())) ∧
    (e.status ≠ EncounterStatus.preparing →
      startEncounter e = (e, Except.error ("Encounter must be in PREPARING state to start"))) ∧
    (startEncounter e).1.initiativeOrder = e.initiativeOrder ∧
    (startEncounter e).1.characters = e.characters := by
  unfold startEncounter
  by_cases h : e.status = EncounterStatus.preparing <;> simp [h]

/-- C7 witness: the amended theorem applied to a COMPLETED encounter (throw)
and, via the first conjunct, to the PREPARING sample. -/
theorem startEncounter_spec_witness :
    encDone.status ≠ EncounterStatus.preparing ∧
    startEncounter encDone
      = (encDone, Except.error ("Encounter must be in PREPARING state to start")) ∧
    encPrepEmpty.status = EncounterStatus.preparing ∧
    startEncounter encPrepEmpty
      = ({ encPrepEmpty with status := EncounterStatus.inProgress }, Except.ok ()) :=
  ⟨by decide, (startEncounter_spec encDone).2.1 (by decide), by decide,
    (startEncounter_spec encPrepEmpty).1 (by decide)⟩

/-! ### C6: COMPLETED does not actually gate action-resolution calls -/

/-- C6: after `endEncounter` has set the status to COMPLETED, action-resolution
calls are still accepted: on a COMPLETED encounter `moveCharacter` returns
true and changes the stored position, and `advanceTurn` changes the turn
index; only `startEncounter` and `endEncounter` themselves reject (COMPLETED
is terminal for the status field, which the rejected calls leave
unchanged). -/
theorem completed_accepts_mutations :
    encDone.status = EncounterStatus.completed ∧
    (moveCharacter encDone ("A") ⟨1, 0⟩).2 = true ∧
    lookupKey ("A") (moveCharacter encDone ("A") ⟨1, 0⟩).1.characterPositions
      = some ⟨1, 0⟩ ∧
    (moveCharacter encDone ("A") ⟨1, 0⟩).1.status = EncounterStatus.completed ∧
    encDone.currentTurnIndex = 0 ∧
    (advanceTurn encDone).currentTurnIndex = 1 ∧
    isErr (startEncounter encDone).2 = true ∧
    (startEncounter encDone).1 = encDone ∧
    isErr (endEncounter encDone).2 = true ∧
    (endEncounter encDone).1 = encDone := by
  decide

/-! ### C9: getAllCharacterDistances -/

/-- C9: `getAllCharacterDistances` returns the empty map when the queried id
has no stored position; otherwise its keys are exactly the other placed ids
(the queried id never appears), each mapped to the Chebyshev distance times
5 feet computed fresh from the current stored positions. -/
theorem getAllCharacterDistances_spec (e : EncounterState) (cid : String) :
    (lookupKey cid e.characterPositions = Option.none →
      getAllCharacterDistances e cid = []) ∧
    (∀ p1, lookupKey cid e.characterPositions = some p1 →
      ((getAllCharacterDistances e cid).map Prod.fst
        = (e.characterPositions.map Prod.fst).filter (fun i => decide (i ≠ cid))) ∧
      (∀ q ∈ getAllCharacterDistances e cid,
        q.1 ≠ cid ∧ ∃ p2, (q.1, p2) ∈ e.characterPositions ∧ q.2 = chebyshevFeet p1 p2) ∧
      (∀ oid p2, (oid, p2) ∈ e.characterPositions → oid ≠ cid →
        (oid, chebyshevFeet p1 p2) ∈ getAllCharacterDistances e cid)) := by
  constructor
  · intro h; unfold getAllCharacterDistances; rw [h]
  · intro p1 h
    unfold getAllCharacterDistances
    rw [h]
    refine ⟨map_fst_filter_pair cid _ _, ?_, ?_⟩
    · intro q hq
      simp only [List.mem_map, List.mem_filter] at hq
      obtain ⟨r, ⟨hr, hrne⟩, hq⟩ := hq
      subst hq
      exact ⟨of_decide_eq_true hrne, r.2, by simpa using hr, rfl⟩
    · intro oid p2 hm hne
      simp only [List.mem_map, List.mem_filter]
      exact ⟨(oid, p2), ⟨hm, by simp [hne]⟩, rfl⟩

/-- C9 witness: distances from character "A" of the sample encounter. -/
theorem getAllCharacterDistances_spec_witness :
    lookupKey ("A") encDone.characterPositions = some ⟨0, 0⟩ ∧
    (("B"), chebyshevFeet ⟨0, 0⟩ ⟨1, 1⟩) ∈ getAllCharacterDistances encDone ("A") ∧
    (getAllCharacterDistances encDone ("A")).map Prod.fst
      = (encDone.characterPositions.map Prod.fst).filter (fun i => decide (i ≠ "A")) :=
  ⟨by decide,
    ((getAllCharacterDistances_spec encDone ("A")).2 ⟨0, 0⟩ (by decide)).2.2
      ("B") ⟨1, 1⟩ (by decide) (by decide),
    ((getAllCharacterDistances_spec encDone ("A")).2 ⟨0, 0⟩ (by decide)).1⟩

/-! ### C1: atomicity of rejected gated operations -/

/-- Sample damage roll (1d4). -/
def dmg0 : DamageRoll :=
  { diceCount := 1, diceType := 4, modifier := 0, damageType := "piercing" }

/-- A weapon action. -/
def actDagger : CharAction := CharAction.weapon ("Dagger") 2 dmg0

/-- A special bonus action that is NOT in the regular action list. -/
def actSecondWind : CharAction :=
  CharAction.special ("Second Wind") ("Regain hit points") Option.none Option.none

/-- `char0` with a fresh turn, one action and two bonus actions. -/
def charFresh : CharacterState :=
  { char0 with actions := [actDagger], bonusActions := [actDagger, actSecondWind],
               turnState := some ⟨false, false, 30⟩ }

/-- `charFresh` after its action slot has been consumed. -/
def charUsedAction : CharacterState :=
  { charFresh with turnState := some ⟨true, false, 30⟩ }

/-- A world for the cross-object `move`. -/
def wSample : World := { encounter := encDone, character := char0 }

/-- C1 counterexample: a rejected call that does mutate state.
`performBonusAction ("Second Wind")` on a fresh turn passes its own gate,
consumes the bonus-action slot, and then the delegated `performAction` throws
"Action Second Wind not found" (the name is absent from the regular action
list); the bonus-action slot is left consumed by the rejected call. -/
theorem performBonusAction_reject_mutates :
    errMsg (performBonusAction charFresh oracle0 ("Second Wind") Option.none).2
      = some ("Action Second Wind not found") ∧
    charFresh.turnState = some ⟨false, false, 30⟩ ∧
    (performBonusAction charFresh oracle0 ("Second Wind") Option.none).1.turnState
      = some ⟨false, true, 30⟩ := by
  decide

/-- C1 (amended): every gated operation that rejects makes no state mutation,
except `performBonusAction`: its own precondition failures (no active turn,
bonus slot consumed, name absent from the bonus-action list) are atomic, but
when the delegated `performAction` rejects, the bonus-action slot is left
consumed and everything else is unchanged. -/
theorem gated_reject_atomicity (s : CharacterState) (w : World) (o : RollOracle)
    (nm : String) (target : Option String) (d20 : Nat) (m dist : Int)
    (cid : String) (x y : Int) :
    (isErr (performAction s o nm target).2 = true → (performAction s o nm target).1 = s) ∧
    (isErr (dash s).2 = true → (dash s).1 = s) ∧
    (isErr (disengage s).2 = true → (disengage s).1 = s) ∧
    (isErr (hide s d20 m).2 = true → (hide s d20 m).1 = s) ∧
    ((useMovement s dist).2 = false → (useMovement s dist).1 = s) ∧
    (isErr (move w cid x y).2 = true → (move w cid x y).1 = w) ∧
    (isErr (performBonusAction s o nm target).2 = true →
      (performBonusAction s o nm target).1 = s ∨
      ∃ ts, s.turnState = some ts ∧ ts.hasUsedBonusAction = false ∧
        (performBonusAction s o nm target).1
          = { s with turnState := some ⟨ts.hasUsedAction, true, ts.remainingMovement⟩ }) := by
  refine ⟨performAction_err s o nm target, dash_err s, disengage_err s, hide_err s d20 m,
    useMovement_false s dist, move_err w cid x y, ?_⟩
  intro h
  cases hts : s.turnState with
  | none =>
    left
    unfold performBonusAction
    rw [hts]
  | some ts =>
    rcases performBonusAction_result s o nm target ts hts with h1 | ⟨hb, h1⟩
    · exact Or.inl h1
    · right
      refine ⟨ts, rfl, hb, ?_⟩
      rw [h1] at h ⊢
      rw [performAction_err _ o nm target h]

/-- C1 witness: the amended theorem applied at concrete rejected calls (no
active turn). -/
theorem gated_reject_atomicity_witness :
    isErr (performAction char0 oracle0 ("Dagger") Option.none).2 = true ∧
    (performAction char0 oracle0 ("Dagger") Option.none).1 = char0 ∧
    isErr (dash char0).2 = true ∧
    (dash char0).1 = char0 ∧
    isErr (move wSample ("A") 1 0).2 = true ∧
    (move wSample ("A") 1 0).1 = wSample := by
  have h := gated_reject_atomicity char0 wSample oracle0 ("Dagger") Option.none 10 0 5 ("A") 1 0
  exact ⟨by decide, h.1 (by decide), by decide, h.2.1 (by decide), by decide,
    h.2.2.2.2.2.1 (by decide)⟩

/-! ### C3: performBonusAction is not gated only on the bonus slot -/

/-- C3: the claim says `performBonusAction` succeeds whenever the bonus slot is
free and the name is in the bonus-action list, regardless of `hasUsedAction`,
consuming only the bonus slot.  The code delegates to `performAction`:
with the action slot already used, a legal bonus action throws
"No action available" (and still consumes the bonus slot); with a fresh turn,
a successful bonus action consumes BOTH slots (`hasUsedAction` flips to
true).  This also contradicts the repository's own `Character.execute`, which
routes to `performBonusAction` exactly when `hasUsedAction` is true — a path
that can only throw. -/
theorem performBonusAction_gating_divergence :
    charUsedAction.turnState = some ⟨true, false, 30⟩ ∧
    (CharAction.special ("Second Wind") ("Regain hit points") Option.none Option.none)
      ∈ charUsedAction.bonusActions ∧
    errMsg (performBonusAction charUsedAction oracle0 ("Second Wind") Option.none).2
      = some ("No action available") ∧
    (performBonusAction charUsedAction oracle0 ("Second Wind") Option.none).1.turnState
      = some ⟨true, true, 30⟩ ∧
    charFresh.turnState = some ⟨false, false, 30⟩ ∧
    isErr (performBonusAction charFresh oracle0 ("Dagger") Option.none).2 = false ∧
    (performBonusAction charFresh oracle0 ("Dagger") Option.none).1.turnState
      = some ⟨true, true, 30⟩ := by
  decide

/-! ### C4: turn-state monotonicity -/

/-- C4 counterexample: within one turn, `remainingMovement` does not only
decrease: `dash` increases it from 30 to 60. -/
theorem dash_increases_remainingMovement :
    (startTurn char0).turnState = some ⟨false, false, 30⟩ ∧
    (applyOp (startTurn char0) TurnOp.doDash).turnState = some ⟨true, false, 60⟩ := by
  decide

/-- C4 (amended): within one turn, under any sequence of turn operations the
two slot flags only transition false → true and the remaining movement never
goes negative; it is non-increasing as long as the sequence contains no
`dash` (which adds the speed) and every validated move distance is
nonnegative; and `useMovement` succeeds exactly when the distance is at most
the remaining movement, subtracting exactly that distance. -/
theorem turnState_monotonicity (s : CharacterState) (ts : TurnState)
    (hts : s.turnState = some ts) (hsp : 0 ≤ s.speed) (h0 : 0 ≤ ts.remainingMovement)
    (ops : List TurnOp) :
    (∃ ts1, (applyOps s ops).turnState = some ts1 ∧
      (ts.hasUsedAction = true → ts1.hasUsedAction = true) ∧
      (ts.hasUsedBonusAction = true → ts1.hasUsedBonusAction = true) ∧
      0 ≤ ts1.remainingMovement ∧
      ((∀ op ∈ ops, op ≠ TurnOp.doDash) →
        (∀ op ∈ ops, ∀ d : Int, op = TurnOp.doMove d → 0 ≤ d) →
        ts1.remainingMovement ≤ ts.remainingMovement)) ∧
    (∀ d : Int,
      ((useMovement s d).2 = true ↔ d ≤ ts.remainingMovement) ∧
      (d ≤ ts.remainingMovement →
        (useMovement s d).1.turnState
          = some ⟨ts.hasUsedAction, ts.hasUsedBonusAction, ts.remainingMovement - d⟩)) := by
  refine ⟨applyOps_step ops s ts hts hsp h0, ?_⟩
  intro d
  constructor
  · constructor
    · intro h
      by_contra hgt
      rw [(useMovement_result s d ts hts).1 (by omega)] at h
      cases h
    · intro h
      rw [(useMovement_result s d ts hts).2 h]
  · intro h
    rw [(useMovement_result s d ts hts).2 h]

/-- C4 witness: the amended theorem applied to a freshly started turn and a
10-foot validated move. -/
theorem turnState_monotonicity_witness :
    (startTurn char0).turnState = some ⟨false, false, 30⟩ ∧
    0 ≤ (startTurn char0).speed ∧
    ((useMovement (startTurn char0) 10).2 = true ↔ (10 : Int) ≤ 30) ∧
    (useMovement (startTurn char0) 10).1.turnState = some ⟨false, false, 20⟩ := by
  have h := turnState_monotonicity (startTurn char0) ⟨false, false, 30⟩ (by decide)
    (by decide) (by decide) [TurnOp.doDisengage, TurnOp.doMove 10]
  refine ⟨by decide, by decide, (h.2 10).1, ?_⟩
  have := (h.2 10).2 (by decide)
  simpa using this

/-! ### Sorting lemmas for the initiative order -/

lemma insertByInitiative_perm (x : String × Int) (l : List (String × Int)) :
    (insertByInitiative x l).Perm (x :: l) := by
  induction l with
  | nil => exact List.Perm.refl _
  | cons y l ih =>
    unfold insertByInitiative
    by_cases h : y.2 ≤ x.2
    · rw [if_pos h]
    · rw [if_neg h]
      exact (ih.cons y).trans (List.Perm.swap x y l)

lemma sortByInitiative_perm (l : List (String × Int)) : (sortByInitiative l).Perm l := by
  induction l with
  | nil => exact List.Perm.refl _
  | cons x l ih =>
    exact (insertByInitiative_perm x (sortByInitiative l)).trans (ih.cons x)

lemma insertByInitiative_pairwise (x : String × Int) (l : List (String × Int))
    (h : l.Pairwise (fun p q => q.2 ≤ p.2)) :
    (insertByInitiative x l).Pairwise (fun p q => q.2 ≤ p.2) := by
  induction l with
  | nil => simp [insertByInitiative]
  | cons y l ih =>
    rcases List.pairwise_cons.mp h with ⟨hy, hl⟩
    unfold insertByInitiative
    by_cases hc : y.2 ≤ x.2
    · rw [if_pos hc]
      refine List.pairwise_cons.mpr ⟨?_, h⟩
      intro q hq
      rcases List.mem_cons.mp hq with hq | hq
      · rw [hq]; exact hc
      · exact (hy q hq).trans hc
    · rw [if_neg hc]
      refine List.pairwise_cons.mpr ⟨?_, ih hl⟩
      intro q hq
      rcases List.mem_cons.mp ((insertByInitiative_perm x l).mem_iff.mp hq) with hq | hq
      · rw [hq]; omega
      · exact hy q hq

lemma sortByInitiative_pairwise (l : List (String × Int)) :
    (sortByInitiative l).Pairwise (fun p q => q.2 ≤ p.2) := by
  induction l with
  | nil => exact List.Pairwise.nil
  | cons x l ih => exact insertByInitiative_pairwise x (sortByInitiative l) ih

/-- Stability of the insertion step: the elements an insertion passes over are
strictly larger, so the sub-list at any fixed initiative value is
preserved. -/
lemma filter_insertByInitiative (x : String × Int) (l : List (String × Int)) (v : Int) :
    (insertByInitiative x l).filter (fun q => decide (q.2 = v))
      = if x.2 = v then x :: l.filter (fun q => decide (q.2 = v))
        else l.filter (fun q => decide (q.2 = v)) := by
  induction l with
  | nil =>
    by_cases hv : x.2 = v <;> simp [insertByInitiative, hv]
  | cons y l ih =>
    unfold insertByInitiative
    by_cases hc : y.2 ≤ x.2
    · rw [if_pos hc]
      by_cases hv : x.2 = v <;> simp [List.filter_cons, hv]
    · rw [if_neg hc]
      rw [List.filter_cons, ih]
      by_cases hv : x.2 = v
      · have hy : ¬(y.2 = v) := by omega
        simp [hv, hy, List.filter_cons]
      · simp [hv, List.filter_cons]

/-- Full stability of the sort: at every initiative value the ties keep their
original (registration) order. -/
lemma sortByInitiative_filter (l : List (String × Int)) (v : Int) :
    (sortByInitiative l).filter (fun q => decide (q.2 = v))
      = l.filter (fun q => decide (q.2 = v)) := by
  induction l with
  | nil => rfl
  | cons x l ih =>
    show (insertByInitiative x (sortByInitiative l)).filter _ = _
    rw [filter_insertByInitiative]
    by_cases hv : x.2 = v <;> simp [hv, List.filter_cons, ih]

/-- Filtering ids by initiative value commutes with dropping the stored
initiative, for lists whose stored initiative agrees with the oracle. -/
lemma map_fst_filter_initOf (initOf : String → Int) (v : Int) :
    ∀ l : List (String × Int), (∀ p ∈ l, p.2 = initOf p.1) →
      (l.map Prod.fst).filter (fun i => decide (initOf i = v))
        = (l.filter (fun q => decide (q.2 = v))).map Prod.fst := by
  intro l
  induction l with
  | nil => intro _; rfl
  | cons q l ih =>
    intro h
    have hq : q.2 = initOf q.1 := h q (List.mem_cons_self q l)
    have hl := ih (fun p hp => h p (List.mem_cons_of_mem q hp))
    by_cases hv : initOf q.1 = v
    · simp [List.filter_cons, List.map_cons, hv, hq, hl]
    · simp [List.filter_cons, List.map_cons, hv, hq, hl]

lemma set_currentTurnIndex_self (e : EncounterState) (v : Int)
    (h : e.currentTurnIndex = v) : { e with currentTurnIndex := v } = e := by
  cases e
  simp only [] at h
  rw [h]

/-- The first `k` turn advances (k strictly below the order length) only step
the index. -/
lemma advanceTurn_iter (e : EncounterState) (k : Nat) (hidx : e.currentTurnIndex = 0)
    (hk : k < e.initiativeOrder.length) :
    advanceTurn^[k] e = { e with currentTurnIndex := (k : Int) } := by
  induction k with
  | zero =>
    rw [Function.iterate_zero_apply]
    exact (set_currentTurnIndex_self e 0 hidx).symm
  | succ k ih =>
    rw [Function.iterate_succ_apply', ih (Nat.lt_of_succ_lt hk)]
    have hc : ((k + 1 : Nat) : Int) = (k : Int) + 1 := by push_cast; ring
    rw [hc]
    unfold advanceTurn
    rw [if_neg (by dsimp only; omega)]

/-! ### C5: rollInitiative order and round advancement -/

/-- C5: after `rollInitiative` the initiative order is a permutation of the
registered ids (no duplicates, no omissions), sorted descending by the rolled
initiative with ties kept in registration order (stable), and the turn index
is 0; starting there, the first length-1 `advanceTurn` calls leave the round
number unchanged and the length-th call increments it — so a full cycle
increments the round exactly once. -/
theorem rollInitiative_advanceTurn_spec (e : EncounterState) (initOf : String → Int)
    (hnodup : (e.characters.map Prod.fst).Nodup) (hne : e.characters ≠ []) :
    (rollInitiative e initOf).initiativeOrder.Perm (e.characters.map Prod.fst) ∧
    (rollInitiative e initOf).initiativeOrder.Nodup ∧
    (rollInitiative e initOf).initiativeOrder.Pairwise (fun a b => initOf b ≤ initOf a) ∧
    (∀ v : Int,
      (rollInitiative e initOf).initiativeOrder.filter (fun i => decide (initOf i = v))
        = (e.characters.map Prod.fst).filter (fun i => decide (initOf i = v))) ∧
    (rollInitiative e initOf).currentTurnIndex = 0 ∧
    (rollInitiative e initOf).roundNumber = e.roundNumber ∧
    (∀ k : Nat, k < (rollInitiative e initOf).initiativeOrder.length →
      (advanceTurn^[k] (rollInitiative e initOf)).roundNumber = e.roundNumber) ∧
    (advanceTurn^[(rollInitiative e initOf).initiativeOrder.length]
        (rollInitiative e initOf)).roundNumber = e.roundNumber + 1 := by
  have hpairs : ∀ p ∈ e.characters.map (fun q => (q.1, initOf q.1)), p.2 = initOf p.1 := by
    intro p hp
    rcases List.mem_map.mp hp with ⟨q, _, hq⟩
    rw [← hq]
  have hperm0 : (sortByInitiative (e.characters.map (fun q => (q.1, initOf q.1)))).Perm
      (e.characters.map (fun q => (q.1, initOf q.1))) := sortByInitiative_perm _
  have hmemS : ∀ p ∈ sortByInitiative (e.characters.map (fun q => (q.1, initOf q.1))),
      p.2 = initOf p.1 := fun p hp => hpairs p (hperm0.mem_iff.mp hp)
  have horder : (rollInitiative e initOf).initiativeOrder
      = (sortByInitiative (e.characters.map (fun q => (q.1, initOf q.1)))).map Prod.fst := rfl
  have hids : (e.characters.map (fun q => (q.1, initOf q.1))).map Prod.fst
      = e.characters.map Prod.fst := by
    rw [List.map_map]
    rfl
  have hperm : (rollInitiative e initOf).initiativeOrder.Perm (e.characters.map Prod.fst) := by
    rw [horder, ← hids]
    exact hperm0.map Prod.fst
  refine ⟨hperm, hperm.nodup_iff.mpr hnodup, ?_, ?_, rfl, rfl, ?_, ?_⟩
  · rw [horder, List.pairwise_map]
    refine (sortByInitiative_pairwise _).imp_of_mem ?_
    intro a b ha hb hr
    have h1 := hmemS a ha
    have h2 := hmemS b hb
    omega
  · intro v
    rw [horder, map_fst_filter_initOf initOf v _ hmemS, sortByInitiative_filter,
      ← map_fst_filter_initOf initOf v _ hpairs, hids]
  · intro k hk
    rw [advanceTurn_iter _ k rfl hk]
    rfl
  · have hlen : 0 < (rollInitiative e initOf).initiativeOrder.length := by
      rw [hperm.length_eq, List.length_map]
      exact List.length_pos.mpr hne
    obtain ⟨n, hn⟩ : ∃ n, (rollInitiative e initOf).initiativeOrder.length = n + 1 :=
      ⟨_, (Nat.succ_pred_eq_of_pos hlen).symm⟩
    rw [hn, Function.iterate_succ_apply',
      advanceTurn_iter _ n rfl (by rw [hn]; exact Nat.lt_succ_self n)]
    unfold advanceTurn
    rw [if_pos (by dsimp only; rw [hn]; push_cast; omega)]
    rfl

/-- C5 witness roster: three registered characters, "A" and "C" tied at 12,
"B" at 15. -/
def encInit : EncounterState :=
  { encPrepEmpty with
    characters := [("A", { name := "Anna", team := Team.party }),
                   ("B", { name := "Borg", team := Team.enemies }),
                   ("C", { name := "Cora", team := Team.party })],
    status := EncounterStatus.inProgress }

/-- The initiative oracle for the C5 witness. -/
def initOf0 : String → Int := fun i => if i = "B" then 15 else 12

/-- C5 witness: the theorem applied to a three-character roster with a tie;
after the roll the index is 0, two advances keep the round, the third
increments it, and the tied ids "A", "C" stay in registration order. -/
theorem rollInitiative_advanceTurn_spec_witness :
    (encInit.characters.map Prod.fst).Nodup ∧
    encInit.characters ≠ [] ∧
    (rollInitiative encInit initOf0).currentTurnIndex = 0 ∧
    (rollInitiative encInit initOf0).initiativeOrder.Perm (encInit.characters.map Prod.fst) ∧
    (advanceTurn^[2] (rollInitiative encInit initOf0)).roundNumber = encInit.roundNumber ∧
    (advanceTurn^[3] (rollInitiative encInit initOf0)).roundNumber = encInit.roundNumber + 1 ∧
    (rollInitiative encInit initOf0).initiativeOrder.filter (fun i => decide (initOf0 i = 12))
      = (encInit.characters.map Prod.fst).filter (fun i => decide (initOf0 i = 12)) := by
  have h := rollInitiative_advanceTurn_spec encInit initOf0 (by decide) (by decide)
  refine ⟨by decide, by decide, h.2.2.2.2.1, h.1, ?_, ?_, h.2.2.2.1 12⟩
  · exact h.2.2.2.2.2.2.1 2 (by decide)
  · have hl : (rollInitiative encInit initOf0).initiativeOrder.length = 3 := by decide
    rw [← hl]
    exact h.2.2.2.2.2.2.2

/-! ### Grid lemmas for C8 and C10 -/

lemma lookupKey_setKey_self {α : Type} (k : String) (v : α) (l : List (String × α)) :
    lookupKey k (setKey k v l) = some v := by
  induction l with
  | nil => simp [setKey, lookupKey]
  | cons q l ih =>
    by_cases h : q.1 = k
    · simp [setKey, h, lookupKey]
    · simp [setKey, h, lookupKey, ih]

lemma lookupKey_setKey_ne {α : Type} (k k2 : String) (v : α) (l : List (String × α))
    (hne : k2 ≠ k) : lookupKey k (setKey k2 v l) = lookupKey k l := by
  induction l with
  | nil => simp [setKey, lookupKey, hne]
  | cons q l ih =>
    by_cases h : q.1 = k2
    · simp [setKey, h, lookupKey, hne]
    · simp [setKey, h, lookupKey, ih]

lemma modifyAt_get {α : Type} (f : α → α) (i j : Nat) (l : List α) :
    (modifyAt i f l).get? j = if i = j then (l.get? j).map f else l.get? j := by
  induction l generalizing i j with
  | nil => simp [modifyAt]
  | cons a l ih =>
    cases i with
    | zero =>
      cases j with
      | zero => simp [modifyAt]
      | succ j => simp [modifyAt]
    | succ i =>
      cases j with
      | zero => simp [modifyAt]
      | succ j =>
        show (modifyAt i f l).get? j = if i + 1 = j + 1 then (l.get? j).map f else l.get? j
        rw [ih i j]
        by_cases h : i = j
        · rw [if_pos h, if_pos (by omega)]
        · rw [if_neg h, if_neg (by omega)]

lemma getCell_setCell (m : List (List MapCell)) (q p : Position) (v : Option String) :
    getCell (setCell m q v) p =
      if q.y.toNat = p.y.toNat ∧ q.x.toNat = p.x.toNat then
        (getCell m p).map (fun c => { c with characterId := v })
      else getCell m p := by
  unfold getCell setCell
  rw [modifyAt_get]
  by_cases hy : q.y.toNat = p.y.toNat
  · rw [if_pos hy]
    cases hrow : m.get? p.y.toNat with
    | none =>
      split <;> rfl
    | some row =>
      by_cases hx : q.x.toNat = p.x.toNat
      · rw [if_pos ⟨hy, hx⟩]
        show (modifyAt q.x.toNat (fun c => { c with characterId := v }) row).get? p.x.toNat
          = (row.get? p.x.toNat).map (fun c => { c with characterId := v })
        rw [modifyAt_get, if_pos hx]
      · rw [if_neg (fun h => hx h.2)]
        show (modifyAt q.x.toNat (fun c => { c with characterId := v }) row).get? p.x.toNat
          = row.get? p.x.toNat
        rw [modifyAt_get, if_neg hx]
  · rw [if_neg hy, if_neg (fun h => hy h.1)]

lemma isValidPosition_getCell (e : EncounterState) (p : Position)
    (h : isValidPosition e p = true) :
    ∃ c, getCell e.map p = some c ∧ c.terrain ≠ TerrainType.wall := by
  unfold isValidPosition at h
  simp only [Bool.and_eq_true, decide_eq_true_eq] at h
  obtain ⟨_, hm⟩ := h
  cases hc : getCell e.map p with
  | none => rw [hc] at hm; cases hm
  | some c =>
    rw [hc] at hm
    exact ⟨c, rfl, by simpa using hm⟩

lemma moveCharacter_of_valid (e : EncounterState) (cid : String) (p : Position)
    (hv : isValidPosition e p = true) :
    moveCharacter e cid p =
      ({ e with
          map := setCell (match lookupKey cid e.characterPositions with
                          | some cur => setCell e.map cur Option.none
                          | Option.none => e.map) p (some cid),
          characterPositions := setKey cid p e.characterPositions }, true) := by
  unfold moveCharacter
  rw [if_pos hv]

/-! ### C8: Character.move distance gating and commit -/

/-- C8 (amended): with an active turn and a stored current position, `move`
computes the Chebyshev distance in feet and (1) rejects with
"Not enough movement remaining" and no state change when it exceeds the
remaining movement; (2) when the distance fits but the target is an invalid
position (wall or out of bounds), rejects with "Invalid movement target" and
no state change; (3) when the distance fits and the target is valid, commits:
the result reports the consumed distance, the remaining movement drops by
exactly that distance with both slot flags untouched, and the stored position
becomes the target. -/
theorem move_spec (w : World) (cid : String) (x y : Int) (ts : TurnState) (cur : Position)
    (hts : w.character.turnState = some ts)
    (hpos : lookupKey cid w.encounter.characterPositions = some cur) :
    (ts.remainingMovement < chebyshevFeet cur ⟨x, y⟩ →
      move w cid x y = (w, Except.error ("Not enough movement remaining"))) ∧
    (chebyshevFeet cur ⟨x, y⟩ ≤ ts.remainingMovement →
      isValidPosition w.encounter ⟨x, y⟩ = false →
      move w cid x y = (w, Except.error ("Invalid movement target"))) ∧
    (chebyshevFeet cur ⟨x, y⟩ ≤ ts.remainingMovement →
      isValidPosition w.encounter ⟨x, y⟩ = true →
      (move w cid x y).2 = Except.ok
        ⟨chebyshevFeet cur ⟨x, y⟩, ⟨x, y⟩, ts.remainingMovement - chebyshevFeet cur ⟨x, y⟩⟩ ∧
      (move w cid x y).1.character.turnState
        = some ⟨ts.hasUsedAction, ts.hasUsedBonusAction,
                ts.remainingMovement - chebyshevFeet cur ⟨x, y⟩⟩ ∧
      lookupKey cid (move w cid x y).1.encounter.characterPositions = some ⟨x, y⟩) := by
  unfold move
  rw [hts, hpos]
  dsimp only
  refine ⟨?_, ?_, ?_⟩
  · intro hlt
    rw [if_pos hlt]
  · intro hle hval
    rw [if_neg (by omega), moveCharacter_of_invalid _ _ _ hval]
    rfl
  · intro hle hval
    rw [if_neg (by omega), moveCharacter_of_valid _ _ _ hval]
    rw [(useMovement_result w.character (chebyshevFeet cur ⟨x, y⟩) ts hts).2 hle]
    rw [if_pos rfl]
    exact ⟨rfl, rfl, lookupKey_setKey_self cid ⟨x, y⟩ w.encounter.characterPositions⟩

/-- `char0` with an active fresh turn (speed 30). -/
def charTurn : CharacterState := { char0 with turnState := some ⟨false, false, 30⟩ }

/-- A 2×1 encounter whose second cell is a wall; "A" stands at (0,0). -/
def encWall : EncounterState :=
  { roundNumber := 1, currentTurnIndex := 0, initiativeOrder := ["A"],
    characters := [("A", { name := "Anna", team := Team.party })],
    mapWidth := 2, mapHeight := 1,
    map := [[{ cellN with characterId := some "A" }, cellW]],
    characterPositions := [("A", ⟨0, 0⟩)], status := EncounterStatus.inProgress }

/-- World for the C8 counterexample. -/
def wWall : World := { encounter := encWall, character := charTurn }

/-- C8 counterexample: the claim's "otherwise commits the move" is false when
the in-budget target is a wall: the 5-foot move into the wall cell is
rejected ("Invalid movement target") and nothing changes, although the
distance (5 ft) is within the remaining movement (30 ft). -/
theorem move_wall_target_not_committed :
    wWall.character.turnState = some ⟨false, false, 30⟩ ∧
    chebyshevFeet ⟨0, 0⟩ ⟨1, 0⟩ = 5 ∧
    errMsg (move wWall ("A") 1 0).2 = some ("Invalid movement target") ∧
    (move wWall ("A") 1 0).1 = wWall := by
  decide

/-- An 8×1 open corridor; "A" stands at (0,0). -/
def encLine : EncounterState :=
  { roundNumber := 1, currentTurnIndex := 0, initiativeOrder := ["A"],
    characters := [("A", { name := "Anna", team := Team.party })],
    mapWidth := 8, mapHeight := 1,
    map := [[{ cellN with characterId := some "A" },
             cellN, cellN, cellN, cellN, cellN, cellN, cellN]],
    characterPositions := [("A", ⟨0, 0⟩)], status := EncounterStatus.inProgress }

/-- World for the C8 witness. -/
def wLine : World := { encounter := encLine, character := charTurn }

/-- C8 witness: the spec scenario — speed 30, a 20-foot move succeeds leaving
10 feet, then a 15-foot move is rejected leaving everything unchanged. -/
theorem move_spec_witness :
    wLine.character.turnState = some ⟨false, false, 30⟩ ∧
    lookupKey ("A") wLine.encounter.characterPositions = some ⟨0, 0⟩ ∧
    (move wLine ("A") 4 0).2 = Except.ok ⟨20, ⟨4, 0⟩, 10⟩ ∧
    (move wLine ("A") 4 0).1.character.turnState = some ⟨false, false, 10⟩ ∧
    move ((move wLine ("A") 4 0).1) ("A") 7 0
      = ((move wLine ("A") 4 0).1, Except.error ("Not enough movement remaining")) := by
  have h1 := move_spec wLine ("A") 4 0 ⟨false, false, 30⟩ ⟨0, 0⟩ (by decide) (by decide)
  have h2 := h1.2.2 (by decide) (by decide)
  have h3 := move_spec ((move wLine ("A") 4 0).1) ("A") 7 0 ⟨false, false, 10⟩ ⟨4, 0⟩
    (by decide) (by decide)
  exact ⟨by decide, by decide, h2.1, h2.2.1, h3.1 (by decide)⟩

/-! ### C10: moveCharacter silently overwrites another occupant -/

/-- C10: `moveCharacter` performs no occupancy check: moving A onto B's
in-bounds non-wall cell returns true, writes A into that cell's occupant
field, and leaves B's stored position pointing at the same cell — the cell's
occupant and B's stored position disagree afterwards. -/
theorem moveCharacter_overwrites_occupant (e : EncounterState) (a b : String)
    (pa pb : Position) (hab : a ≠ b)
    (hpa : lookupKey a e.characterPositions = some pa)
    (hpb : lookupKey b e.characterPositions = some pb)
    (hvalid : isValidPosition e pb = true) :
    (moveCharacter e a pb).2 = true ∧
    ((getCell (moveCharacter e a pb).1.map pb).map MapCell.characterId) = some (some a) ∧
    lookupKey b (moveCharacter e a pb).1.characterPositions = some pb ∧
    lookupKey a (moveCharacter e a pb).1.characterPositions = some pb := by
  rw [moveCharacter_of_valid e a pb hvalid, hpa]
  dsimp only
  obtain ⟨c, hc, _⟩ := isValidPosition_getCell e pb hvalid
  refine ⟨rfl, ?_, ?_, ?_⟩
  · rw [getCell_setCell, if_pos ⟨rfl, rfl⟩, getCell_setCell]
    by_cases hcase : pa.y.toNat = pb.y.toNat ∧ pa.x.toNat = pb.x.toNat
    · rw [if_pos hcase, hc]
      rfl
    · rw [if_neg hcase, hc]
      rfl
  · rw [lookupKey_setKey_ne b a pb _ hab]
    exact hpb
  · exact lookupKey_setKey_self a pb e.characterPositions

/-- The sample encounter while still in progress. -/
def encTwo : EncounterState := { encDone with status := EncounterStatus.inProgress }

/-- C10 witness: "A" moves onto "B"'s cell (1,1); the move is accepted, the
cell now names "A" as occupant, and "B" still maps to (1,1). -/
theorem moveCharacter_overwrites_occupant_witness :
    ("A") ≠ ("B" : String) ∧
    lookupKey ("A") encTwo.characterPositions = some ⟨0, 0⟩ ∧
    lookupKey ("B") encTwo.characterPositions = some ⟨1, 1⟩ ∧
    isValidPosition encTwo ⟨1, 1⟩ = true ∧
    (moveCharacter encTwo ("A") ⟨1, 1⟩).2 = true ∧
    ((getCell (moveCharacter encTwo ("A") ⟨1, 1⟩).1.map ⟨1, 1⟩).map MapCell.characterId)
      = some (some "A") ∧
    lookupKey ("B") (moveCharacter encTwo ("A") ⟨1, 1⟩).1.characterPositions
      = some ⟨1, 1⟩ := by
  have h := moveCharacter_overwrites_occupant encTwo ("A") ("B") ⟨0, 0⟩ ⟨1, 1⟩
    (by decide) (by decide) (by decide) (by decide)
  exact ⟨by decide, by decide, by decide, by decide, h.1, h.2.1, h.2.2.1⟩

end DnD
